import Mathlib

/-!
Verification development for the PageGobbler / Web Page Gobble capture pipeline.

Shallow embedding of the algorithmic core of the extension:
  - the adaptive compressor (`ImageProcessor.compress` in src/viewer/viewer.js),
  - the smart sectioner (`ImageProcessor.smartSection`, `_findBreakPoint`,
    `_rowVariance` in src/viewer/viewer.js),
  - the stitcher (`ImageProcessor.stitch`, `_loadImage` in src/viewer/viewer.js),
  - the content-script capture driver (src/content/content.js) together with the
    background service worker (src/background.js), including the capture rate
    limiter (`MIN_CAPTURE_INTERVAL_MS`).

JavaScript numbers are embedded as `Nat` / `Q` with exact arithmetic; quality
and scale values (floats in [0,1] in the source) are represented in hundredths
(e.g. quality 0.92 becomes 92).  Float drift of the JS quality ladders
(0.92 - 0.1 = 0.8200000000000001, ...) does not change the number of ladder
steps nor any comparison relevant here, so the hundredths representation is
faithful for every property below.
-/

namespace PageGobbler

/-! ### Adaptive compressor (src/viewer/viewer.js, ImageProcessor.compress) -/

/-- The encoding formats used by `ImageProcessor.compress`:
image/png, image/webp, image/jpeg. -/
inductive Fmt where
  | png
  | webp
  | jpeg
deriving DecidableEq, Repr

/-- options.compressionStrategy values: auto | aggressive | lossless. -/
inductive Strategy where
  | auto
  | aggressive
  | lossless
deriving DecidableEq, Repr

/-- The result object of `ImageProcessor.compress`:
`{blob, format, quality, scaled, scaleFactor?}`.  The blob is represented by
its byte size (`blob.size`); `quality` and `scaleFactor` are in hundredths.
`scaleFactor` is `none` when the JS object carries no such field
(the unscaled results of `_tryFormat`). -/
structure CompressResult where
  sizeBytes : Nat
  format : Fmt
  quality : Nat
  scaled : Bool
  scaleFactor : Option Nat
deriving DecidableEq, Repr

/-- Encoding oracle abstracting `canvas.toBlob(format, quality)` applied to the
section canvas, possibly downscaled: `sz fmt q s` is the byte size of encoding
the canvas scaled by s% (100 = original, via `_scaleCanvas`) in format `fmt`
at quality q%.  The oracle is the only thing `compress` observes about
the canvas and the codecs. -/
abbrev Encoder := Fmt → Nat → Nat → Nat

/-- One descending quality/scale loop `for (v = q; v >= stop; v -= step)`,
in hundredths, with explicit fuel (structural recursion). -/
def descSteps (step stop : Nat) : Nat → Nat → List Nat
  | 0, _ => []
  | fuel + 1, q => if stop ≤ q then q :: descSteps step stop fuel (q - step) else []

/-- The ladder `for (v = start; v >= stop; v -= step)` of the source,
values in hundredths.  Fuel start+1 is enough for any positive step. -/
def ladder (start step stop : Nat) : List Nat :=
  descSteps step stop (start + 1) start

/-- `ImageProcessor._tryFormat(canvas, format, quality, maxSize)`:
encode and return the result if `blob.size <= maxSize`, else null.
`scalePct` records which scaled canvas was passed in. -/
def tryFormat (sz : Encoder) (fmt : Fmt) (q scalePct maxSize : Nat) :
    Option CompressResult :=
  if sz fmt q scalePct ≤ maxSize then some ⟨sz fmt q scalePct, fmt, q, false, none⟩
  else none

/-- The spread `{...result, scaled: true, scaleFactor: scale}` used on the
downscale path of `compress`. -/
def withScale (s : Nat) (r : CompressResult) : CompressResult :=
  { r with scaled := true, scaleFactor := some s }

/-- `ImageProcessor.compress(canvas, options)` over the encoding oracle.
Mirrors the source exactly:
lossless short-circuits through `_tryFormat(canvas, png, 1.0, maxSize)`
(so it returns null when the png is over budget);
otherwise WebP quality 0.92..0.30 step 0.10, then JPEG 0.85..0.30 step 0.10,
then scales 0.75..0.25 step 0.10 with WebP quality 0.80..0.40 step 0.15,
then the unconditional last resort: JPEG at quality 0.3 on the canvas scaled
to 50%. -/
def compress (sz : Encoder) (strategy : Strategy) (maxSize : Nat) :
    Option CompressResult :=
  if strategy = Strategy.lossless then tryFormat sz Fmt.png 100 100 maxSize
  else
    match (ladder 92 10 30).findSome? (fun q => tryFormat sz Fmt.webp q 100 maxSize) with
    | some r => some r
    | none =>
      match (ladder 85 10 30).findSome? (fun q => tryFormat sz Fmt.jpeg q 100 maxSize) with
      | some r => some r
      | none =>
        match (ladder 75 10 25).findSome? (fun s =>
            (ladder 80 15 40).findSome? (fun q =>
              (tryFormat sz Fmt.webp q s maxSize).map (withScale s))) with
        | some r => some r
        | none => some ⟨sz Fmt.jpeg 30 50, Fmt.jpeg, 30, true, some 50⟩

/-- Every (format, quality, scale) combination of the default strategy's
ladders exceeds the byte budget. -/
def AllLaddersFail (sz : Encoder) (maxSize : Nat) : Prop :=
  (∀ q ∈ ladder 92 10 30, maxSize < sz Fmt.webp q 100) ∧
  (∀ q ∈ ladder 85 10 30, maxSize < sz Fmt.jpeg q 100) ∧
  (∀ s ∈ ladder 75 10 25, ∀ q ∈ ladder 80 15 40, maxSize < sz Fmt.webp q s)

theorem tryFormat_size_le {sz : Encoder} {fmt : Fmt} {q s B : Nat} {r : CompressResult}
    (h : tryFormat sz fmt q s B = some r) : r.sizeBytes ≤ B := by
  unfold tryFormat at h
  split at h
  · cases h
    assumption
  · cases h

theorem tryFormat_none {sz : Encoder} {fmt : Fmt} {q s B : Nat}
    (h : tryFormat sz fmt q s B = none) : B < sz fmt q s := by
  unfold tryFormat at h
  split at h
  · cases h
  · omega

theorem findSome?_eq_none_forall {α β : Type} {f : α → Option β} {l : List α}
    (h : l.findSome? f = none) : ∀ a ∈ l, f a = none := by
  induction l with
  | nil => intro a ha; cases ha
  | cons x xs ih =>
    rw [List.findSome?_cons] at h
    intro a ha
    rcases List.mem_cons.mp ha with rfl | hmem
    · cases hfa : f a with
      | none => rfl
      | some b => rw [hfa] at h; cases h
    · cases hfx : f x with
      | none => rw [hfx] at h; exact ih h a hmem
      | some b => rw [hfx] at h; cases h

theorem findSome?_eq_some_exists {α β : Type} {f : α → Option β} {l : List α} {b : β}
    (h : l.findSome? f = some b) : ∃ a ∈ l, f a = some b := by
  induction l with
  | nil => cases h
  | cons x xs ih =>
    rw [List.findSome?_cons] at h
    cases hfx : f x with
    | none =>
      rw [hfx] at h
      obtain ⟨a, ha, hfa⟩ := ih h
      exact ⟨a, List.mem_cons_of_mem x ha, hfa⟩
    | some c =>
      rw [hfx] at h
      cases h
      exact ⟨x, List.mem_cons_self x xs, hfx⟩

/-- C1 (amended): with the default (auto/aggressive) strategy, `compress`
always returns a result; that result is within the byte budget except on
the last-resort path, which is taken only when every ladder/scale
combination exceeds the budget and which force-encodes in the secondary
lossy format image/jpeg (not the primary image/webp) at scale 0.5 and
quality 0.3. -/
theorem compress_default_budget (sz : Encoder) (strategy : Strategy) (B : Nat)
    (hs : strategy ≠ Strategy.lossless) :
    ∃ r, compress sz strategy B = some r ∧
      (r.sizeBytes ≤ B ∨
        (r.format = Fmt.jpeg ∧ r.quality = 30 ∧ r.scaled = true ∧
          r.scaleFactor = some 50 ∧ r.sizeBytes = sz Fmt.jpeg 30 50 ∧
          AllLaddersFail sz B)) := by
  unfold compress
  rw [if_neg hs]
  cases hw : (ladder 92 10 30).findSome? (fun q => tryFormat sz Fmt.webp q 100 B) with
  | some r =>
    refine ⟨r, rfl, Or.inl ?_⟩
    obtain ⟨q, _, hq⟩ := findSome?_eq_some_exists hw
    exact tryFormat_size_le hq
  | none =>
    cases hj : (ladder 85 10 30).findSome? (fun q => tryFormat sz Fmt.jpeg q 100 B) with
    | some r =>
      refine ⟨r, rfl, Or.inl ?_⟩
      obtain ⟨q, _, hq⟩ := findSome?_eq_some_exists hj
      exact tryFormat_size_le hq
    | none =>
      cases hsc : (ladder 75 10 25).findSome? (fun s =>
          (ladder 80 15 40).findSome? (fun q =>
            (tryFormat sz Fmt.webp q s B).map (withScale s))) with
      | some r =>
        refine ⟨r, rfl, Or.inl ?_⟩
        obtain ⟨s, _, hsr⟩ := findSome?_eq_some_exists hsc
        obtain ⟨q, _, hqr⟩ := findSome?_eq_some_exists hsr
        cases htf : tryFormat sz Fmt.webp q s B with
        | none => rw [htf] at hqr; cases hqr
        | some r0 =>
          rw [htf] at hqr
          cases hqr
          simpa [withScale] using tryFormat_size_le htf
      | none =>
        refine ⟨_, rfl, Or.inr ⟨rfl, rfl, rfl, rfl, rfl, ?_, ?_, ?_⟩⟩
        · intro q hq
          exact tryFormat_none (findSome?_eq_none_forall hw q hq)
        · intro q hq
          exact tryFormat_none (findSome?_eq_none_forall hj q hq)
        · intro s hsm q hqm
          have h1 := findSome?_eq_none_forall hsc s hsm
          have h2 := findSome?_eq_none_forall h1 q hqm
          cases htf : tryFormat sz Fmt.webp q s B with
          | none => exact tryFormat_none htf
          | some r0 => rw [htf] at h2; cases h2

/-- Witness for C1's amended theorem: concrete oracle where the first webp
step fits. -/
theorem compress_default_budget_witness :
    Strategy.auto ≠ Strategy.lossless ∧
      ∃ r, compress (fun _ _ _ => 7) Strategy.auto 10 = some r ∧
        (r.sizeBytes ≤ 10 ∨
          (r.format = Fmt.jpeg ∧ r.quality = 30 ∧ r.scaled = true ∧
            r.scaleFactor = some 50 ∧
            r.sizeBytes = (fun _ _ _ => 7 : Encoder) Fmt.jpeg 30 50 ∧
            AllLaddersFail (fun _ _ _ => 7) 10)) :=
  ⟨by decide, compress_default_budget (fun _ _ _ => 7) Strategy.auto 10 (by decide)⟩

/-- C1 counterexample: when every encoding is over budget (oracle constantly
1 byte, budget 0), the default strategy's flagged-over-budget result is
force-encoded as image/jpeg — the SECONDARY lossy format — contradicting the
claim that it is in the primary lossy format (image/webp, the format the
ladder tries first). -/
theorem compress_last_resort_is_jpeg_not_webp :
    compress (fun _ _ _ => 1) Strategy.auto 0 =
      some ⟨1, Fmt.jpeg, 30, true, some 50⟩ ∧
    Fmt.jpeg ≠ Fmt.webp ∧ (1 : Nat) > 0 := by
  refine ⟨by decide, by decide, by decide⟩

/-- C4: with compressionStrategy = lossless and a png encoding 1 byte over
the budget, `compress` returns null (its `_tryFormat` call enforces the
budget), so the caller gets no result at all — the code contradicts the
guarantee that lossless always returns a png result regardless of size. -/
theorem compress_lossless_over_budget_returns_none :
    compress (fun _ _ _ => 1) Strategy.lossless 0 = none := by
  decide

/-! ### Smart sectioner (src/viewer/viewer.js, ImageProcessor.smartSection,
_findBreakPoint, _rowVariance)

The stitched canvas is embedded as its dimensions plus, for each row y, the
list of (r, g, b) pixel channel values returned by
`ctx.getImageData(0, y, width, 1).data` (the alpha channel is never read by
`_rowVariance` and is omitted). -/

/-- A canvas as seen by the sectioner. -/
structure Canvas where
  width : Nat
  height : Nat
  /-- pixel row y as (r, g, b) channel byte triples -/
  row : Nat → List (Nat × Nat × Nat)

/-- `ImageProcessor._rowVariance(pixelData)`: per-channel squared deviation
from the row's mean color, summed over pixels, divided by the pixel count.
Exact rational arithmetic; the (impossible in the browser, where getImageData
on a zero-width canvas throws) count = 0 case totalizes to 0. -/
def rowVariance (px : List (Nat × Nat × Nat)) : ℚ :=
  let count : ℚ := px.length
  let avgR : ℚ := (px.map fun p => (p.1 : ℚ)).sum / count
  let avgG : ℚ := (px.map fun p => (p.2.1 : ℚ)).sum / count
  let avgB : ℚ := (px.map fun p => (p.2.2 : ℚ)).sum / count
  (px.map fun p =>
    ((p.1 : ℚ) - avgR) ^ 2 + ((p.2.1 : ℚ) - avgG) ^ 2 + ((p.2.2 : ℚ) - avgB) ^ 2).sum
    / count

/-- The rows sampled by the `for (y = scanStart; y < scanEnd; y += 4)` loop. -/
def sampledRows (scanStart scanEnd : Nat) : List Nat :=
  (List.range ((scanEnd - scanStart + 3) / 4)).map (fun k => scanStart + 4 * k)

/-- One step of `_findBreakPoint`'s best-row accumulation.  The second
component models `bestVariance`, with `none` standing for the initial
Infinity (any finite variance beats it). -/
def bestRowStep (canvas : Canvas) (best : Nat × Option ℚ) (y : Nat) :
    Nat × Option ℚ :=
  match best.2 with
  | none => (y, some (rowVariance (canvas.row y)))
  | some bv =>
    if rowVariance (canvas.row y) < bv then (y, some (rowVariance (canvas.row y)))
    else best

/-- `ImageProcessor._findBreakPoint(canvas, startY, targetEndY, maxHeight)`.
`Math.floor(maxHeight * 0.7)` is embedded as 7 * maxHeight / 10 (Nat
division); the double rounding of 0.7 can shift this by at most one row,
which affects no property proved here.  `targetEndY - searchRange` is
JS subtraction that may go negative; Nat truncation at 0 agrees with the
source because the other max operand is nonnegative. -/
def findBreakPoint (canvas : Canvas) (startY targetEndY maxHeight : Nat) : Nat :=
  let searchRange := 200
  let scanStart := max (startY + 7 * maxHeight / 10) (targetEndY - searchRange)
  let scanEnd := min (targetEndY + searchRange) canvas.height
  ((sampledRows scanStart scanEnd).foldl (bestRowStep canvas) (targetEndY, none)).1

/-- A section record `{startY, endY, index}` (the cropped canvas of the JS
record is the rows [startY, endY) of the input canvas and is determined by
these fields, so it is not duplicated here). -/
structure Section where
  startY : Nat
  endY : Nat
  index : Nat
deriving DecidableEq, Repr

/-- The cut chosen by one iteration of the `while` loop of `smartSection`:
`endY = min(currentY + maxSectionHeight, totalHeight)`, refined through
`_findBreakPoint` when more sections remain (`endY < totalHeight`). -/
def nextCut (canvas : Canvas) (maxSectionHeight currentY : Nat) : Nat :=
  if min (currentY + maxSectionHeight) canvas.height < canvas.height then
    findBreakPoint canvas currentY (min (currentY + maxSectionHeight) canvas.height)
      maxSectionHeight
  else min (currentY + maxSectionHeight) canvas.height

/-- The `while (currentY < totalHeight)` loop of `smartSection`, with fuel.
The JS loop has no fuel; `none` models divergence (fuel exhausted while
`currentY < totalHeight`), and `smartSection` supplies fuel `canvas.height`,
which is enough whenever every iteration advances `currentY` — exactly the
situation of claim C10. -/
def sectionLoop (canvas : Canvas) (maxSectionHeight : Nat) :
    Nat → Nat → Nat → Option (List Section)
  | 0, currentY, _ => if canvas.height ≤ currentY then some [] else none
  | fuel + 1, currentY, index =>
    if currentY < canvas.height then
      match sectionLoop canvas maxSectionHeight fuel
          (nextCut canvas maxSectionHeight currentY) (index + 1) with
      | some rest =>
        some (⟨currentY, nextCut canvas maxSectionHeight currentY, index⟩ :: rest)
      | none => none
    else some []

/-- `options.sectionMaxHeight || SECTION_MAX_HEIGHT`: a falsy (0) value
defaults to 4096. -/
def effectiveMaxHeight (sectionMaxHeight : Nat) : Nat :=
  if sectionMaxHeight = 0 then 4096 else sectionMaxHeight

/-- `ImageProcessor.smartSection(canvas, options)`.
`options.devicePixelRatio` is read by the source but never used. -/
def smartSection (canvas : Canvas) (sectionMaxHeight : Nat) :
    Option (List Section) :=
  if canvas.height ≤ effectiveMaxHeight sectionMaxHeight then
    some [⟨0, canvas.height, 0⟩]
  else sectionLoop canvas (effectiveMaxHeight sectionMaxHeight) canvas.height 0 0

theorem mem_sampledRows {s e y : Nat} (h : y ∈ sampledRows s e) :
    s ≤ y ∧ y < e := by
  unfold sampledRows at h
  obtain ⟨k, hk, rfl⟩ := List.mem_map.mp h
  rw [List.mem_range] at hk
  have hdiv : (e - s + 3) / 4 * 4 ≤ e - s + 3 := Nat.div_mul_le_self _ _
  omega

theorem findBreakPoint_cases (canvas : Canvas) (startY targetEndY maxHeight : Nat) :
    findBreakPoint canvas startY targetEndY maxHeight = targetEndY ∨
      (max (startY + 7 * maxHeight / 10) (targetEndY - 200) ≤
          findBreakPoint canvas startY targetEndY maxHeight ∧
        findBreakPoint canvas startY targetEndY maxHeight <
          min (targetEndY + 200) canvas.height) := by
  unfold findBreakPoint
  set scanStart := max (startY + 7 * maxHeight / 10) (targetEndY - 200) with hs
  set scanEnd := min (targetEndY + 200) canvas.height with he
  have key : ∀ (l : List Nat) (init : Nat × Option ℚ),
      (∀ y ∈ l, scanStart ≤ y ∧ y < scanEnd) →
      (init.1 = targetEndY ∨ (scanStart ≤ init.1 ∧ init.1 < scanEnd)) →
      ((l.foldl (bestRowStep canvas) init).1 = targetEndY ∨
        (scanStart ≤ (l.foldl (bestRowStep canvas) init).1 ∧
          (l.foldl (bestRowStep canvas) init).1 < scanEnd)) := by
    intro l
    induction l with
    | nil => intro init _ hinit; exact hinit
    | cons x xs ih =>
      intro init hmem hinit
      rw [List.foldl_cons]
      apply ih
      · intro y hy; exact hmem y (List.mem_cons_of_mem x hy)
      · have hx := hmem x (List.mem_cons_self x xs)
        unfold bestRowStep
        cases init.2 with
        | none => exact Or.inr hx
        | some bv =>
          dsimp only
          split
          · exact Or.inr hx
          · exact hinit
  exact key _ _ (fun y hy => mem_sampledRows hy) (Or.inl rfl)

/-- In the loop body (2 ≤ maxHeight, currentY + maxHeight < height), the
chosen break point strictly advances past currentY and stays below the
canvas height. -/
theorem findBreakPoint_progress (canvas : Canvas) {currentY maxHeight : Nat}
    (h2 : 2 ≤ maxHeight) (hlt : currentY + maxHeight < canvas.height) :
    currentY < findBreakPoint canvas currentY (currentY + maxHeight) maxHeight ∧
      findBreakPoint canvas currentY (currentY + maxHeight) maxHeight ≤
        canvas.height := by
  have h710 : 1 ≤ 7 * maxHeight / 10 :=
    (Nat.le_div_iff_mul_le (by omega)).mpr (by omega)
  rcases findBreakPoint_cases canvas currentY (currentY + maxHeight) maxHeight with
    heq | ⟨hlo, hhi⟩
  · rw [heq]; omega
  · constructor
    · have : currentY + 7 * maxHeight / 10 ≤
          max (currentY + 7 * maxHeight / 10) (currentY + maxHeight - 200) :=
        le_max_left _ _
      omega
    · have : min (currentY + maxHeight + 200) canvas.height ≤ canvas.height :=
        min_le_right _ _
      omega

/-- The list l partitions [a, canvas.height) into consecutive sections. -/
def PartitionsFrom (H : Nat) : Nat → List Section → Prop
  | a, [] => a = H
  | a, s :: rest =>
    s.startY = a ∧ a ≤ s.endY ∧ s.endY ≤ H ∧ PartitionsFrom H s.endY rest

theorem nextCut_bounds (canvas : Canvas) (maxSectionHeight currentY : Nat)
    (hc : currentY < canvas.height) :
    currentY ≤ nextCut canvas maxSectionHeight currentY ∧
      nextCut canvas maxSectionHeight currentY ≤ canvas.height := by
  unfold nextCut
  split
  · rename_i hnaive
    have hmin : min (currentY + maxSectionHeight) canvas.height =
        currentY + maxSectionHeight := by omega
    rw [hmin] at hnaive ⊢
    rcases findBreakPoint_cases canvas currentY (currentY + maxSectionHeight)
        maxSectionHeight with heq | ⟨hlo, hhi⟩
    · rw [heq]; omega
    · have h1 : currentY + 7 * maxSectionHeight / 10 ≤
          max (currentY + 7 * maxSectionHeight / 10)
            (currentY + maxSectionHeight - 200) := le_max_left _ _
      have h2 : min (currentY + maxSectionHeight + 200) canvas.height ≤
          canvas.height := min_le_right _ _
      omega
  · omega

/-- With maxSectionHeight ≥ 2 the cut strictly advances. -/
theorem nextCut_progress (canvas : Canvas) {maxSectionHeight currentY : Nat}
    (h2 : 2 ≤ maxSectionHeight) (hc : currentY < canvas.height) :
    currentY < nextCut canvas maxSectionHeight currentY ∧
      nextCut canvas maxSectionHeight currentY ≤ canvas.height := by
  unfold nextCut
  split
  · rename_i hnaive
    have hmin : min (currentY + maxSectionHeight) canvas.height =
        currentY + maxSectionHeight := by omega
    rw [hmin]
    rw [hmin] at hnaive
    exact findBreakPoint_progress canvas h2 hnaive
  · omega

theorem sectionLoop_partitions (canvas : Canvas) (maxSectionHeight : Nat) :
    ∀ (fuel currentY index : Nat) (l : List Section),
      currentY ≤ canvas.height →
      sectionLoop canvas maxSectionHeight fuel currentY index = some l →
      PartitionsFrom canvas.height currentY l := by
  intro fuel
  induction fuel with
  | zero =>
    intro currentY index l hle h
    unfold sectionLoop at h
    split at h
    · cases h; exact le_antisymm hle (by assumption)
    · cases h
  | succ fuel ih =>
    intro currentY index l hle h
    unfold sectionLoop at h
    split at h
    · rename_i hc
      have hbounds := nextCut_bounds canvas maxSectionHeight currentY hc
      cases hrec : sectionLoop canvas maxSectionHeight fuel
          (nextCut canvas maxSectionHeight currentY) (index + 1) with
      | some rest =>
        rw [hrec] at h
        cases h
        exact ⟨rfl, hbounds.1, hbounds.2,
          ih (nextCut canvas maxSectionHeight currentY) (index + 1) rest
            hbounds.2 hrec⟩
      | none => rw [hrec] at h; cases h
    · cases h
      exact le_antisymm hle (by omega)

theorem partitionsFrom_mem {H : Nat} :
    ∀ {a : Nat} {l : List Section}, PartitionsFrom H a l →
      ∀ s ∈ l, a ≤ s.startY ∧ s.startY ≤ s.endY ∧ s.endY ≤ H := by
  intro a l
  induction l generalizing a with
  | nil => intro _ s hs; cases hs
  | cons t rest ih =>
    intro h s hs
    obtain ⟨hstart, hle, hH, hrest⟩ := h
    rcases List.mem_cons.mp hs with rfl | hmem
    · exact ⟨le_of_eq hstart.symm, by omega, hH⟩
    · have := ih hrest s hmem
      omega

theorem partitionsFrom_pairwise {H : Nat} :
    ∀ {a : Nat} {l : List Section}, PartitionsFrom H a l →
      l.Pairwise (fun s t => s.endY ≤ t.startY) := by
  intro a l
  induction l generalizing a with
  | nil => intro _; exact List.Pairwise.nil
  | cons t rest ih =>
    intro h
    obtain ⟨hstart, hle, hH, hrest⟩ := h
    refine List.Pairwise.cons ?_ (ih hrest)
    intro s hs
    exact (partitionsFrom_mem hrest s hs).1

theorem partitionsFrom_cover {H : Nat} :
    ∀ {a : Nat} {l : List Section}, PartitionsFrom H a l →
      ∀ y, (∃ s ∈ l, s.startY ≤ y ∧ y < s.endY) ↔ (a ≤ y ∧ y < H) := by
  intro a l
  induction l generalizing a with
  | nil =>
    intro h y
    subst h
    constructor
    · rintro ⟨s, hs, _⟩; cases hs
    · omega
  | cons t rest ih =>
    intro h y
    obtain ⟨hstart, hle, hH, hrest⟩ := h
    have hrestiff := ih hrest y
    constructor
    · rintro ⟨s, hs, hy1, hy2⟩
      rcases List.mem_cons.mp hs with rfl | hmem
      · have := partitionsFrom_mem hrest
        omega
      · have : t.endY ≤ y ∧ y < H := hrestiff.mp ⟨s, hmem, hy1, hy2⟩
        omega
    · intro hy
      by_cases hcase : y < t.endY
      · exact ⟨t, List.mem_cons_self t rest, by omega, hcase⟩
      · obtain ⟨s, hmem, hcov⟩ := hrestiff.mpr (by omega)
        exact ⟨s, List.mem_cons_of_mem t hmem, hcov⟩

/-- C2: whenever `smartSection` returns a section list, the sections have
`startY ≤ endY`, are sorted by position with pairwise-disjoint
[startY, endY) ranges (each section ends before the next begins), and
their union is exactly [0, canvas.height): no pixel row is duplicated or
skipped. -/
theorem smartSection_partition (canvas : Canvas) (sectionMaxHeight : Nat)
    (l : List Section) (h : smartSection canvas sectionMaxHeight = some l) :
    (∀ s ∈ l, s.startY ≤ s.endY) ∧
      l.Pairwise (fun s t => s.endY ≤ t.startY) ∧
      ∀ y, (∃ s ∈ l, s.startY ≤ y ∧ y < s.endY) ↔ y < canvas.height := by
  unfold smartSection at h
  split at h
  · cases h
    refine ⟨?_, ?_, ?_⟩
    · intro s hs
      rcases List.mem_cons.mp hs with rfl | hmem
      · exact Nat.zero_le _
      · cases hmem
    · exact List.pairwise_singleton _ _
    · intro y
      constructor
      · rintro ⟨s, hs, hy1, hy2⟩
        rcases List.mem_cons.mp hs with rfl | hmem
        · exact hy2
        · cases hmem
      · intro hy
        exact ⟨⟨0, canvas.height, 0⟩, List.mem_cons_self _ _, Nat.zero_le _, hy⟩
  · have hpart := sectionLoop_partitions canvas _ canvas.height 0 0 l
      (Nat.zero_le _) h
    refine ⟨?_, partitionsFrom_pairwise hpart, ?_⟩
    · intro s hs
      exact (partitionsFrom_mem hpart s hs).2.1
    · intro y
      rw [partitionsFrom_cover hpart y]
      omega

/-- All-black 1x5 canvas used to witness the sectioner theorems. -/
def tinyCanvas : Canvas where
  width := 1
  height := 5
  row := fun _ => [(0, 0, 0)]

/-- Witness for C2 at a concrete canvas and bound. -/
theorem smartSection_partition_witness :
    (∀ s ∈ [Section.mk 0 1 0, Section.mk 1 2 1, Section.mk 2 3 2, Section.mk 3 5 3],
        s.startY ≤ s.endY) ∧
      List.Pairwise (fun s t => s.endY ≤ t.startY)
        [Section.mk 0 1 0, Section.mk 1 2 1, Section.mk 2 3 2, Section.mk 3 5 3] ∧
      ∀ y, (∃ s ∈ [Section.mk 0 1 0, Section.mk 1 2 1, Section.mk 2 3 2,
          Section.mk 3 5 3], s.startY ≤ y ∧ y < s.endY) ↔ y < tinyCanvas.height :=
  smartSection_partition tinyCanvas 2 _ rfl

theorem sectionLoop_isSome (canvas : Canvas) (maxSectionHeight : Nat)
    (h2 : 2 ≤ maxSectionHeight) :
    ∀ (fuel currentY index : Nat), canvas.height - currentY ≤ fuel →
      (sectionLoop canvas maxSectionHeight fuel currentY index).isSome := by
  intro fuel
  induction fuel with
  | zero =>
    intro currentY index hfuel
    unfold sectionLoop
    rw [if_pos (by omega)]
    rfl
  | succ fuel ih =>
    intro currentY index hfuel
    unfold sectionLoop
    split
    · rename_i hc
      have hprog := nextCut_progress canvas h2 hc
      have := ih (nextCut canvas maxSectionHeight currentY) (index + 1) (by omega)
      cases hrec : sectionLoop canvas maxSectionHeight fuel
          (nextCut canvas maxSectionHeight currentY) (index + 1) with
      | some rest => rfl
      | none => rw [hrec] at this; cases this
    · rfl

/-- C10: for any canvas of positive height and any sectionMaxHeight ≥ 2 the
sectioning loop terminates (the fuel canvas.height is never exhausted),
because each iteration's chosen cut point strictly exceeds the current
startY: the break-point scan window begins at or above
startY + floor(0.7 * maxHeight) ≥ startY + 1. -/
theorem smartSection_terminates (canvas : Canvas) (sectionMaxHeight : Nat)
    (h2 : 2 ≤ sectionMaxHeight) (hH : 0 < canvas.height) :
    (smartSection canvas sectionMaxHeight).isSome ∧
      ∀ y, y + sectionMaxHeight < canvas.height →
        y < findBreakPoint canvas y (y + sectionMaxHeight) sectionMaxHeight := by
  constructor
  · have heff : effectiveMaxHeight sectionMaxHeight = sectionMaxHeight := by
      unfold effectiveMaxHeight
      rw [if_neg (by omega)]
    unfold smartSection
    rw [heff]
    split
    · rfl
    · exact sectionLoop_isSome canvas sectionMaxHeight h2 canvas.height 0 0
        (by omega)
  · intro y hy
    exact (findBreakPoint_progress canvas h2 hy).1

/-- Witness for C10 at a concrete canvas and bound. -/
theorem smartSection_terminates_witness :
    (smartSection tinyCanvas 2).isSome ∧
      ∀ y, y + 2 < tinyCanvas.height →
        y < findBreakPoint tinyCanvas y (y + 2) 2 :=
  smartSection_terminates tinyCanvas 2 (by decide) (by decide)

/-! ### Stitcher (src/viewer/viewer.js, ImageProcessor.stitch, _loadImage)

A decoded bitmap is embedded as its `naturalWidth` plus an abstract content
identifier; the stitched canvas is embedded as its dimensions plus, for each
destination row, the draw operation that last painted it (`drawImage` calls
paint rows top to bottom in capture order, later calls overwriting earlier
ones), which determines the row's pixels. -/

/-- A decoded `Image` as used by `stitch`. -/
structure Image where
  naturalWidth : Nat
  /-- abstract identity of the decoded bitmap's pixel content -/
  content : Nat
deriving DecidableEq, Repr

/-- One element of the `captures` array handed to `ImageProcessor.stitch`:
`{dataUrl, scrollY, viewportHeight, clipHeight, index}`.  `decoded` is the
outcome of `_loadImage(dataUrl)`: `some img` when the data URL decodes,
`none` when the image fires onerror (missing or undecodable data). -/
structure ViewportCapture where
  decoded : Option Image
  scrollY : Nat
  viewportHeight : Nat
  clipHeight : Nat
  index : Nat
deriving DecidableEq, Repr

/-- The `pageInfo` fields read by `stitch`: `{pageHeight, devicePixelRatio}`.
devicePixelRatio is a JS float, i.e. an exact rational, embedded as the
fraction dprNum / dprDen; it is falsy exactly when dprNum = 0. -/
structure PageInfo where
  pageHeight : Nat
  dprNum : Nat
  dprDen : Nat
deriving DecidableEq, Repr

/-- What a destination row of the stitched canvas received from the last
`drawImage` covering it: the source bitmap's content id, the source row
index, and the source width (the row is scaled horizontally from srcWidth
to the canvas width). -/
structure RowPaint where
  content : Nat
  srcRow : Nat
  srcWidth : Nat
deriving DecidableEq, Repr

/-- The stitched output canvas: dimensions plus, for each destination row
y < height in order, the paint that determines its pixels (`none` = never
painted, transparent). -/
structure StitchedCanvas where
  width : Nat
  height : Nat
  rows : List (Option RowPaint)
deriving DecidableEq, Repr

/-- JS `Math.round(n * num/den)` for nonnegative values:
floor(n * num/den + 1/2) = (2 * n * num + den) / (2 * den) in Nat division. -/
def jsRoundMul (n num den : Nat) : Nat := (2 * n * num + den) / (2 * den)

/-- Nat ceiling division (a + b - 1) / b, the value of `Math.ceil(a / b)`
for nonnegative operands. -/
def natCeilDiv (a b : Nat) : Nat := (a + b - 1) / b

/-- The Nat ceiling division agrees with the mathematical ceiling of the
rational a / b. -/
theorem natCeilDiv_eq_ceil (a b : Nat) (hb : 0 < b) :
    ((natCeilDiv a b : Nat) : ℤ) = Int.ceil ((a : ℚ) / (b : ℚ)) := by
  unfold natCeilDiv
  have h1 := Nat.div_add_mod (a + b - 1) b
  have h2 := Nat.mod_lt (a + b - 1) hb
  set q := (a + b - 1) / b with hq
  have hub : a ≤ b * q := by omega
  have hlb : b * q < a + b := by omega
  have hbq : (0 : ℚ) < (b : ℚ) := by positivity
  rw [eq_comm, Int.ceil_eq_iff]
  constructor
  · rw [lt_div_iff₀ hbq]
    have : ((b * q : Nat) : ℚ) < ((a + b : Nat) : ℚ) := by
      exact_mod_cast hlb
    push_cast at this ⊢
    nlinarith
  · rw [div_le_iff₀ hbq]
    have : ((a : Nat) : ℚ) ≤ ((b * q : Nat) : ℚ) := by
      exact_mod_cast hub
    push_cast at this ⊢
    nlinarith

/-- The comparator `(a, b) => a.scrollY - b.scrollY` as an ordering. -/
def scrollLE (a b : ViewportCapture) : Prop := a.scrollY ≤ b.scrollY

instance : DecidableRel scrollLE := fun a b => Nat.decLe a.scrollY b.scrollY

instance : IsTotal ViewportCapture scrollLE := ⟨fun x y => Nat.le_total x.scrollY y.scrollY⟩

instance : IsTrans ViewportCapture scrollLE := ⟨fun _ _ _ => Nat.le_trans⟩

/-- `captures.sort((a, b) => a.scrollY - b.scrollY)`: JS Array.sort is
stable (ES2019); any stable sort by the same key produces the same list,
and insertion sort is stable. -/
def sortByScrollY (captures : List ViewportCapture) : List ViewportCapture :=
  List.insertionSort scrollLE captures

/-- `Promise.all(captures.map(c => this._loadImage(c.dataUrl)))`: all images,
or the first decode failure rejecting the whole stitch. -/
def loadImages : List ViewportCapture → Except String (List Image)
  | [] => Except.ok []
  | c :: rest =>
    match c.decoded with
    | none => Except.error "image decode failed"
    | some img =>
      match loadImages rest with
      | Except.ok imgs => Except.ok (img :: imgs)
      | Except.error e => Except.error e

/-- Numerator of `pageInfo.devicePixelRatio || 1`. -/
def effDprNum (info : PageInfo) : Nat :=
  if info.dprNum = 0 then 1 else info.dprNum

/-- Denominator of `pageInfo.devicePixelRatio || 1`. -/
def effDprDen (info : PageInfo) : Nat :=
  if info.dprNum = 0 then 1 else info.dprDen

/-- `Math.ceil(pageInfo.pageHeight * dpr)`, the stitched canvas height. -/
def scaledPageHeight (info : PageInfo) : Nat :=
  natCeilDiv (info.pageHeight * effDprNum info) (effDprDen info)

/-- The `drawImage` calls of the stitch loop, in order: for capture cap with
image img, source rect rows [0, round(clipHeight*dpr)) drawn at destination
row round(scrollY*dpr). -/
def drawOps (caps : List ViewportCapture) (imgs : List Image) (num den : Nat) :
    List (Image × Nat × Nat) :=
  (caps.zip imgs).map fun p =>
    (p.2, jsRoundMul p.1.scrollY num den, jsRoundMul p.1.clipHeight num den)

/-- The paint a destination row y ends up with: the last op in draw order
whose [destY, destY + srcHeight) range covers y. -/
def paintRow (ops : List (Image × Nat × Nat)) (y : Nat) : Option RowPaint :=
  ops.foldl
    (fun acc op =>
      if op.2.1 ≤ y ∧ y < op.2.1 + op.2.2 then
        some ⟨op.1.content, y - op.2.1, op.1.naturalWidth⟩
      else acc)
    none

/-- `ImageProcessor.stitch` after the in-place sort: decode all images
(rejecting on the first failure), read `images[0].naturalWidth` (a TypeError
rejection when there are no captures), allocate the canvas of height
`Math.ceil(pageHeight * dpr)`, and draw every capture at its scroll offset. -/
def stitchSorted (sorted : List ViewportCapture) (info : PageInfo) :
    Except String StitchedCanvas :=
  match loadImages sorted with
  | Except.error e => Except.error e
  | Except.ok [] => Except.error "TypeError: captures array is empty"
  | Except.ok (img0 :: rest) =>
    Except.ok
      { width := img0.naturalWidth,
        height := scaledPageHeight info,
        rows := (List.range (scaledPageHeight info)).map
          (paintRow (drawOps sorted (img0 :: rest) (effDprNum info)
            (effDprDen info))) }

/-- `ImageProcessor.stitch(captures, pageInfo)`: sort by scrollY, then
decode and composite. -/
def stitch (captures : List ViewportCapture) (info : PageInfo) :
    Except String StitchedCanvas :=
  stitchSorted (sortByScrollY captures) info

theorem eq_of_perm_of_pairwise_key_lt {α : Type} (key : α → Nat) :
    ∀ {l₁ l₂ : List α}, l₁.Perm l₂ →
      l₁.Pairwise (fun a b => key a < key b) →
      l₂.Pairwise (fun a b => key a < key b) → l₁ = l₂ := by
  intro l₁
  induction l₁ with
  | nil =>
    intro l₂ hp _ _
    exact (List.Perm.eq_nil hp.symm).symm
  | cons a t ih =>
    intro l₂ hp h₁ h₂
    cases l₂ with
    | nil =>
      have := List.Perm.eq_nil hp
      cases this
    | cons b t₂ =>
      by_cases hab : a = b
      · subst hab
        have ht : t.Perm t₂ := hp.cons_inv
        rw [ih ht (List.pairwise_cons.mp h₁).2 (List.pairwise_cons.mp h₂).2]
      · have ha2 : a ∈ b :: t₂ := hp.mem_iff.mp (List.mem_cons_self a t)
        have hb1 : b ∈ a :: t := hp.mem_iff.mpr (List.mem_cons_self b t₂)
        have ha : a ∈ t₂ := by
          rcases List.mem_cons.mp ha2 with h | h
          · exact absurd h hab
          · exact h
        have hb : b ∈ t := by
          rcases List.mem_cons.mp hb1 with h | h
          · exact absurd h.symm hab
          · exact h
        have hlt1 := (List.pairwise_cons.mp h₁).1 b hb
        have hlt2 := (List.pairwise_cons.mp h₂).1 a ha
        omega

/-- With pairwise-distinct scroll offsets, sorting is insensitive to the
arrival order. -/
theorem sortByScrollY_perm_eq {caps caps' : List ViewportCapture}
    (hperm : caps.Perm caps')
    (hdist : caps.Pairwise (fun a b => a.scrollY ≠ b.scrollY)) :
    sortByScrollY caps = sortByScrollY caps' := by
  have hdist' : caps'.Pairwise (fun a b => a.scrollY ≠ b.scrollY) :=
    (List.Perm.pairwise_iff (fun h => Ne.symm h) hperm).mp hdist
  have hp1 : (sortByScrollY caps).Perm caps := List.perm_insertionSort scrollLE caps
  have hp2 : (sortByScrollY caps').Perm caps' :=
    List.perm_insertionSort scrollLE caps'
  have hs1 : (sortByScrollY caps).Pairwise scrollLE :=
    List.sorted_insertionSort scrollLE caps
  have hs2 : (sortByScrollY caps').Pairwise scrollLE :=
    List.sorted_insertionSort scrollLE caps'
  have hd1 : (sortByScrollY caps).Pairwise (fun a b => a.scrollY ≠ b.scrollY) :=
    (List.Perm.pairwise_iff (fun h => Ne.symm h) hp1).mpr hdist
  have hd2 : (sortByScrollY caps').Pairwise (fun a b => a.scrollY ≠ b.scrollY) :=
    (List.Perm.pairwise_iff (fun h => Ne.symm h) hp2).mpr hdist'
  have hlt1 : (sortByScrollY caps).Pairwise
      (fun a b => a.scrollY < b.scrollY) := by
    refine (hs1.and hd1).imp ?_
    intro a b hab
    have h1 : a.scrollY ≤ b.scrollY := hab.1
    have h2 : a.scrollY ≠ b.scrollY := hab.2
    omega
  have hlt2 : (sortByScrollY caps').Pairwise
      (fun a b => a.scrollY < b.scrollY) := by
    refine (hs2.and hd2).imp ?_
    intro a b hab
    have h1 : a.scrollY ≤ b.scrollY := hab.1
    have h2 : a.scrollY ≠ b.scrollY := hab.2
    omega
  exact eq_of_perm_of_pairwise_key_lt (fun c => c.scrollY)
    (hp1.trans (hperm.trans hp2.symm)) hlt1 hlt2

/-- C6 (amended): when the captures' scroll offsets are pairwise distinct,
the stitched output is identical for any permutation of the input capture
list, and any stitched canvas has height exactly
ceil(pageHeight x devicePixelRatio).  (With duplicate scroll offsets the
stable sort preserves arrival order among equals and the last-drawn
duplicate wins, so arrival order can then change the output: see the
counterexample.) -/
theorem stitch_perm_invariant_and_height (caps caps' : List ViewportCapture)
    (info : PageInfo) (hnum : 0 < info.dprNum) (hden : 0 < info.dprDen)
    (hperm : caps.Perm caps')
    (hdist : caps.Pairwise (fun a b => a.scrollY ≠ b.scrollY)) :
    stitch caps info = stitch caps' info ∧
      ∀ sc, stitch caps info = Except.ok sc →
        (sc.height : ℤ) =
          Int.ceil ((info.pageHeight * info.dprNum : ℚ) / (info.dprDen : ℚ)) := by
  constructor
  · unfold stitch
    rw [sortByScrollY_perm_eq hperm hdist]
  · intro sc h
    unfold stitch stitchSorted at h
    have heffn : effDprNum info = info.dprNum := by
      unfold effDprNum
      rw [if_neg (by omega)]
    have heffd : effDprDen info = info.dprDen := by
      unfold effDprDen
      rw [if_neg (by omega)]
    cases hl : loadImages (sortByScrollY caps) with
    | error e => rw [hl] at h; cases h
    | ok imgs =>
      rw [hl] at h
      cases imgs with
      | nil => cases h
      | cons img0 rest =>
        cases h
        show ((scaledPageHeight info : Nat) : ℤ) = _
        unfold scaledPageHeight
        rw [heffn, heffd, natCeilDiv_eq_ceil _ _ hden]
        push_cast
        ring_nf

/-- Capture used in stitcher witnesses: 2 wide, content id 7, full viewport. -/
def capW : ViewportCapture :=
  ⟨some ⟨2, 7⟩, 0, 1, 1, 0⟩

/-- Second capture, same width, content id 8, next viewport. -/
def capX : ViewportCapture :=
  ⟨some ⟨2, 8⟩, 1, 1, 1, 1⟩

/-- Page info used in stitcher witnesses (dpr = 1). -/
def infoW : PageInfo := ⟨2, 1, 1⟩

/-- Witness for C6's amended theorem at concrete captures. -/
theorem stitch_perm_invariant_and_height_witness :
    stitch [capW, capX] infoW = stitch [capX, capW] infoW ∧
      ∀ sc, stitch [capW, capX] infoW = Except.ok sc →
        (sc.height : ℤ) =
          Int.ceil ((infoW.pageHeight * infoW.dprNum : ℚ) / (infoW.dprDen : ℚ)) :=
  stitch_perm_invariant_and_height [capW, capX] [capX, capW] infoW
    (by decide) (by decide) (List.Perm.swap capX capW []) (by decide)

/-- Capture with scrollY 0 and content id 10, for the C6 counterexample. -/
def capA : ViewportCapture := ⟨some ⟨1, 10⟩, 0, 1, 1, 0⟩

/-- Capture with the same scrollY 0 but content id 20. -/
def capB : ViewportCapture := ⟨some ⟨1, 20⟩, 0, 1, 1, 1⟩

/-- Page info for the C6 counterexample (dpr = 1). -/
def infoAB : PageInfo := ⟨1, 1, 1⟩

/-- C6 counterexample: two captures sharing scrollY = 0 but with different
bitmap contents.  The lists are permutations of each other, yet the
stitched outputs differ (the stable sort keeps arrival order among equal
offsets, and the later draw overwrites the earlier one), refuting "the
output is identical for any permutation of the input capture list". -/
theorem stitch_not_permutation_invariant :
    List.Perm [capA, capB] [capB, capA] ∧
      stitch [capA, capB] infoAB ≠ stitch [capB, capA] infoAB := by
  constructor
  · exact List.Perm.swap capB capA []
  · intro h
    have := congrArg Except.toOption h
    revert this
    decide

theorem loadImages_ok_iff :
    ∀ l : List ViewportCapture,
      (∃ imgs, loadImages l = Except.ok imgs) ↔ ∀ c ∈ l, c.decoded ≠ none := by
  intro l
  induction l with
  | nil =>
    constructor
    · intro _ c hc; cases hc
    · intro _; exact ⟨[], rfl⟩
  | cons c rest ih =>
    constructor
    · rintro ⟨imgs, h⟩ d hd
      unfold loadImages at h
      cases hdec : c.decoded with
      | none => rw [hdec] at h; cases h
      | some img =>
        rw [hdec] at h
        rcases List.mem_cons.mp hd with rfl | hmem
        · rw [hdec]; intro hcon; cases hcon
        · cases hrest : loadImages rest with
          | ok imgs' => exact (ih.mp ⟨imgs', hrest⟩) d hmem
          | error e => rw [hrest] at h; cases h
    · intro hall
      have hc := hall c (List.mem_cons_self c rest)
      cases hdec : c.decoded with
      | none => exact absurd hdec hc
      | some img =>
        obtain ⟨imgs', hrest⟩ := ih.mpr (fun d hd => hall d (List.mem_cons_of_mem c hd))
        refine ⟨img :: imgs', ?_⟩
        unfold loadImages
        rw [hdec, hrest]

theorem loadImages_ok_length {l : List ViewportCapture} {imgs : List Image}
    (h : loadImages l = Except.ok imgs) : imgs.length = l.length := by
  induction l generalizing imgs with
  | nil => cases h; rfl
  | cons c rest ih =>
    unfold loadImages at h
    cases hdec : c.decoded with
    | none => rw [hdec] at h; cases h
    | some img =>
      rw [hdec] at h
      cases hrest : loadImages rest with
      | ok imgs' =>
        rw [hrest] at h
        cases h
        simp [ih hrest]
      | error e => rw [hrest] at h; cases h

/-- C9 (amended): the stitch rejects exactly when the capture list is empty
(reading `images[0].naturalWidth` throws) or some capture's bitmap fails to
decode (the decode error propagates; there is no distinct StitchError
type in the source).  On rejection no canvas is produced (the Except is an
error, so there is no partial output).  Width mismatches are NOT detected:
see the counterexample, where mismatched widths stitch successfully. -/
theorem stitch_error_iff (caps : List ViewportCapture) (info : PageInfo) :
    (stitch caps info).toOption = none ↔
      caps = [] ∨ ∃ c ∈ caps, c.decoded = none := by
  have hperm : (sortByScrollY caps).Perm caps := List.perm_insertionSort scrollLE caps
  constructor
  · intro h
    unfold stitch stitchSorted at h
    cases hl : loadImages (sortByScrollY caps) with
    | error e =>
      right
      by_contra hcon
      push_neg at hcon
      have : ∀ c ∈ sortByScrollY caps, c.decoded ≠ none := by
        intro c hc
        exact hcon c (hperm.mem_iff.mp hc)
      obtain ⟨imgs, hok⟩ := (loadImages_ok_iff (sortByScrollY caps)).mpr this
      rw [hok] at hl
      cases hl
    | ok imgs =>
      rw [hl] at h
      cases imgs with
      | nil =>
        left
        have hlen := loadImages_ok_length hl
        have hnil : sortByScrollY caps = [] :=
          List.eq_nil_of_length_eq_zero hlen.symm
        rw [hnil] at hperm
        exact List.Perm.eq_nil hperm.symm
      | cons img0 rest => cases h
  · intro h
    unfold stitch stitchSorted
    rcases h with rfl | ⟨c, hc, hdec⟩
    · rfl
    · cases hl : loadImages (sortByScrollY caps) with
      | error e => rfl
      | ok imgs =>
        have := (loadImages_ok_iff (sortByScrollY caps)).mp ⟨imgs, hl⟩ c
          (hperm.mem_iff.mpr hc)
        exact absurd hdec this

/-- Capture of width 2 for the C9 counterexample. -/
def capU : ViewportCapture := ⟨some ⟨2, 5⟩, 0, 1, 1, 0⟩

/-- Capture of width 3 (mismatched) for the C9 counterexample. -/
def capV : ViewportCapture := ⟨some ⟨3, 6⟩, 1, 1, 1, 1⟩

/-- Page info for the C9 counterexample. -/
def infoUV : PageInfo := ⟨2, 1, 1⟩

/-- C9 counterexample: two captures with mismatched widths (2 vs 3), both
decoding fine.  The claim requires the stitcher to fail with a StitchError,
but the code performs no width check at all — `drawImage` silently rescales
the mismatched capture horizontally and the stitch succeeds. -/
theorem stitch_width_mismatch_no_error :
    (stitch [capU, capV] infoUV).toOption.isSome = true ∧
      Option.map Image.naturalWidth capU.decoded ≠
        Option.map Image.naturalWidth capV.decoded := by
  exact ⟨by decide, by decide⟩

/-! ### Capture driver and orchestration
(src/content/content.js together with src/background.js)

The page-level visual state the content script can mutate is embedded as a
record; `window.scrollTo` clamps the target offset to the page's maximum
scroll position `pageHeight - viewportHeight` (CSSOM View behavior, which is
why the script reads `window.scrollY` back instead of reusing the target).
String-valued inline styles are embedded as strings. -/

/-- Page-level visual state owned by the browser. -/
structure PageState where
  scrollY : Nat
  scrollBehavior : String
  docOverflow : String
  bodyOverflow : String
  /-- inline visibility style of each fixed/sticky element, in DOM order -/
  fixedVis : List String
  pageHeight : Nat
  viewportHeight : Nat
deriving DecidableEq, Repr

/-- `window.scrollTo(0, y)` with the browser's clamp to the maximum scroll
offset (Nat subtraction already yields 0 when viewportHeight exceeds
pageHeight). -/
def scrollTo (pg : PageState) (y : Nat) : PageState :=
  { pg with scrollY := min y (pg.pageHeight - pg.viewportHeight) }

/-- The content script's module-level variables. -/
structure ContentState where
  scrollIndex : Nat
  totalScrolls : Nat
  pageHeight : Nat
  viewportHeight : Nat
  originalScrollY : Nat
  originalScrollBehavior : String
  /-- `fixedElements`: the saved origVisibility of each fixed element -/
  savedFixedVis : List String
deriving DecidableEq, Repr

/-- Messages exchanged between the background worker and the content
script (plus the background-internal start request). -/
inductive Message where
  | beginScrollCapture
  | nextScroll
  | captureError
  | captureDone
  | statusUpdate
  | captureViewport (scrollY viewportHeight clipHeight idx totalScrolls : Nat)
  | captureComplete
deriving DecidableEq, Repr

/-- `requestCaptureOfCurrentViewport()`: reads the actual scroll position
back from the window and clips the last viewport to the remaining page. -/
def requestCaptureOfCurrentViewport (st : ContentState) (pg : PageState) :
    Message :=
  Message.captureViewport pg.scrollY st.viewportHeight
    (min st.viewportHeight (st.pageHeight - pg.scrollY)) st.scrollIndex
    st.totalScrolls

/-- The content-script state right after `beginCapture` measured the page:
scrollIndex 0, `totalScrolls = Math.ceil(pageHeight / viewportHeight)`, the
saved originals (scroll offset, scroll-behavior, fixed visibilities). -/
def beginContentState (pg : PageState) : ContentState :=
  { scrollIndex := 0,
    totalScrolls := natCeilDiv pg.pageHeight pg.viewportHeight,
    pageHeight := pg.pageHeight,
    viewportHeight := pg.viewportHeight,
    originalScrollY := pg.scrollY,
    originalScrollBehavior := pg.scrollBehavior,
    savedFixedVis := pg.fixedVis }

/-- The page right after `beginCapture` mutated it: scrollBehavior "auto",
documentElement overflow "hidden", body overflow "visible" (the original
overflow values are NOT saved anywhere), scrolled to the top. -/
def beginPageState (pg : PageState) : PageState :=
  scrollTo
    { pg with scrollBehavior := "auto", docOverflow := "hidden",
              bodyOverflow := "visible" } 0

/-- `beginCapture(cfg)`: mutate the page, measure, and request the first
viewport capture. -/
def beginCapture (pg : PageState) : ContentState × PageState × Message :=
  (beginContentState pg, beginPageState pg,
    requestCaptureOfCurrentViewport (beginContentState pg) (beginPageState pg))

/-- `applyFixedElementHiding()`: set every fixed/sticky element's visibility
to hidden. -/
def applyFixedElementHiding (pg : PageState) : PageState :=
  { pg with fixedVis := pg.fixedVis.map (fun _ => "hidden") }

/-- `captureNextViewport()`: advance the index, hide fixed elements after
the first capture, then either finish (emit capture-complete) or scroll to
the next offset and request a capture. -/
def captureNextViewport (st : ContentState) (pg : PageState) :
    ContentState × PageState × Message :=
  let st1 := { st with scrollIndex := st.scrollIndex + 1 }
  let pg1 := if st1.scrollIndex = 1 then applyFixedElementHiding pg else pg
  if st1.totalScrolls ≤ st1.scrollIndex then
    (st1, pg1, Message.captureComplete)
  else
    let pg2 := scrollTo pg1 (st1.scrollIndex * st1.viewportHeight)
    (st1, pg2, requestCaptureOfCurrentViewport st1 pg2)

/-- `cleanup()`: restore each fixed element's saved visibility and clear the
list, restore the original scroll-behavior, reset BOTH overflow styles to
the empty string (their original values were never saved), and scroll back
to the original offset. -/
def cleanup (st : ContentState) (pg : PageState) : ContentState × PageState :=
  let pg1 := { pg with fixedVis := st.savedFixedVis }
  let st1 := { st with savedFixedVis := [] }
  let pg2 := { pg1 with scrollBehavior := st.originalScrollBehavior,
                        docOverflow := "", bodyOverflow := "" }
  (st1, scrollTo pg2 st.originalScrollY)

/-- The content script's `chrome.runtime.onMessage` dispatch: note that only
begin-scroll-capture, next-scroll, capture-error and capture-done have
handlers; any other action (in particular status-update) is a no-op
(`handlers[msg.action]?.()`). -/
def contentHandle (msg : Message) (st : ContentState) (pg : PageState) :
    ContentState × PageState × List Message :=
  match msg with
  | Message.beginScrollCapture =>
    match beginCapture pg with
    | (st', pg', m) => (st', pg', [m])
  | Message.nextScroll =>
    match captureNextViewport st pg with
    | (st', pg', m) => (st', pg', [m])
  | Message.captureError =>
    match cleanup st pg with
    | (st', pg') => (st', pg', [])
  | Message.captureDone =>
    match cleanup st pg with
    | (st', pg') => (st', pg', [])
  | _ => (st, pg, [])

/-- One stored viewport capture record in the background's session state
(the dataUrl blob is irrelevant to the claims about session state). -/
structure CaptureRecord where
  scrollY : Nat
  viewportHeight : Nat
  clipHeight : Nat
  idx : Nat
deriving DecidableEq, Repr

/-- The background's `captureState` object:
`{tabId, settings, captures, status, startTime}` (settings abstracted to an
identifier: `handleStartCapture` stores whatever `loadSettings()` returned). -/
structure CaptureSession where
  tabId : Nat
  settingsId : Nat
  captures : List CaptureRecord
  status : String
  startTime : Nat
deriving DecidableEq, Repr

/-- The background worker's module-level state. -/
structure BgState where
  captureState : Option CaptureSession
  lastCaptureTime : Nat
deriving DecidableEq, Repr

/-- `handleStartCapture(tabId)` (settings already loaded as settingsId, now
= Date.now()): bail out when tabId is falsy (0), otherwise UNCONDITIONALLY
overwrite `captureState` with a fresh session — there is no check whether a
session is already active — and tell the content script to begin. -/
def handleStartCapture (bg : BgState) (tabId settingsId now : Nat) :
    BgState × List Message :=
  if tabId = 0 then (bg, [])
  else
    ({ bg with
        captureState := some (CaptureSession.mk tabId settingsId [] "measuring" now) },
      [Message.beginScrollCapture])

/-- `handleCaptureViewport(msg)` with the rate-limit wait elided (it is
modeled separately as `captureFireTime`): no-op without a session;
on a successful `captureVisibleTab` append the capture and continue, on
failure leave the session untouched and send capture-error. -/
def handleCaptureViewportMsg (bg : BgState)
    (scrollY viewportHeight clipHeight idx : Nat) (ok : Bool) :
    BgState × List Message :=
  match bg.captureState with
  | none => (bg, [])
  | some sess =>
    if ok then
      ({ bg with
          captureState :=
            some ({ sess with
                captures :=
                  sess.captures ++ [⟨scrollY, viewportHeight, clipHeight, idx⟩] }) },
        [Message.nextScroll])
    else (bg, [Message.captureError])

/-- `handleCaptureComplete(msg)`: store the result, open the viewer (both
elided), send a status-update — NOT capture-done — to the tab, and clear
the session in the finally block. -/
def handleCaptureCompleteMsg (bg : BgState) : BgState × List Message :=
  match bg.captureState with
  | none => (bg, [])
  | some _ => ({ bg with captureState := none }, [Message.statusUpdate])

/-- The whole extension: both actors plus the in-flight message queue,
processed in FIFO order (single-threaded event loops, sequential
message passing). -/
structure SystemState where
  content : ContentState
  page : PageState
  bg : BgState
  queue : List Message
deriving DecidableEq, Repr

/-- Deliver the next queued message to its addressee (capture-viewport and
capture-complete go to the background, everything else to the content
script); `ok` tells whether `captureVisibleTab` succeeds. -/
def dispatch (s : SystemState) (ok : Bool) : SystemState :=
  match s.queue with
  | [] => s
  | m :: rest =>
    match m with
    | Message.captureViewport y vh ch i _ =>
      match handleCaptureViewportMsg s.bg y vh ch i ok with
      | (bg', out) => { s with bg := bg', queue := rest ++ out }
    | Message.captureComplete =>
      match handleCaptureCompleteMsg s.bg with
      | (bg', out) => { s with bg := bg', queue := rest ++ out }
    | _ =>
      match contentHandle m s.content s.page with
      | (c', pg', out) =>
        { s with content := c', page := pg', queue := rest ++ out }

/-- Run the system until the queue is empty (or fuel runs out). -/
def runSystem (ok : Bool) : Nat → SystemState → SystemState
  | 0, s => s
  | fuel + 1, s =>
    match s.queue with
    | [] => s
    | _ :: _ => runSystem ok fuel (dispatch s ok)

/-- Initial content-script state (module-level variable initializers). -/
def contentInit : ContentState :=
  { scrollIndex := 0, totalScrolls := 0, pageHeight := 0, viewportHeight := 0,
    originalScrollY := 0, originalScrollBehavior := "", savedFixedVis := [] }

/-- A concrete page for the C3 failing input: two viewports tall, scrolled
to 5, smooth scrolling, an inline overflow style, one fixed element. -/
def pageC3 : PageState :=
  { scrollY := 5, scrollBehavior := "smooth", docOverflow := "auto",
    bodyOverflow := "", fixedVis := ["visible"], pageHeight := 20,
    viewportHeight := 10 }

/-- The system right after `handleStartCapture` queued begin-scroll-capture. -/
def sysC3 : SystemState :=
  { content := contentInit, page := pageC3,
    bg := ⟨some ⟨1, 0, [], "measuring", 0⟩, 0⟩,
    queue := [Message.beginScrollCapture] }

/-- C3: on the success path the driver restores nothing.  Running a fully
successful two-viewport capture session to completion (queue empty, session
cleared, both captures recorded) leaves every mutated piece of page state
unrestored: the page is still scrolled to the last offset (10, not the
original 5), scroll-behavior is still "auto" (not "smooth"), the overflow
styles are still hidden/visible (not "auto"/""), and the fixed element is
still hidden.  The background sends status-update, for which the content
script has no handler; its capture-done handler (which would run cleanup)
is never triggered by any sender in the codebase. -/
theorem success_path_restores_nothing :
    (runSystem true 10 sysC3).queue = [] ∧
      (runSystem true 10 sysC3).bg.captureState = none ∧
      (runSystem true 10 sysC3).page.scrollY = 10 ∧
      (runSystem true 10 sysC3).page.scrollBehavior = "auto" ∧
      (runSystem true 10 sysC3).page.docOverflow = "hidden" ∧
      (runSystem true 10 sysC3).page.bodyOverflow = "visible" ∧
      (runSystem true 10 sysC3).page.fixedVis = ["hidden"] ∧
      pageC3.scrollY = 5 ∧ pageC3.scrollBehavior = "smooth" ∧
      pageC3.docOverflow = "auto" ∧ pageC3.bodyOverflow = "" ∧
      pageC3.fixedVis = ["visible"] := by
  decide

/-- The failure path, for contrast: `cleanup` (run by the capture-error and
capture-done handlers) does restore the scroll position, the
scroll-behavior style and the fixed elements' visibilities — but resets the
overflow styles to "" instead of their saved originals (they were never
saved). -/
theorem cleanup_restores_most (st : ContentState) (pg : PageState) :
    (cleanup st pg).2.scrollY =
        min st.originalScrollY (pg.pageHeight - pg.viewportHeight) ∧
      (cleanup st pg).2.scrollBehavior = st.originalScrollBehavior ∧
      (cleanup st pg).2.fixedVis = st.savedFixedVis ∧
      (cleanup st pg).2.docOverflow = "" ∧
      (cleanup st pg).2.bodyOverflow = "" := by
  exact ⟨rfl, rfl, rfl, rfl, rfl⟩

/-- C8 counterexample: a start-capture request arriving while a session is
active (here: one capture already accumulated, status "capturing") does NOT
leave the active session's state unchanged — `handleStartCapture` replaces
`captureState` with a fresh session, discarding the accumulated captures. -/
theorem second_start_replaces_session :
    (handleStartCapture ⟨some ⟨1, 9, [⟨0, 10, 10, 0⟩], "capturing", 100⟩, 0⟩
        1 9 200).1.captureState ≠
      (⟨some ⟨1, 9, [⟨0, 10, 10, 0⟩], "capturing", 100⟩, 0⟩ : BgState).captureState ∧
      (handleStartCapture ⟨some ⟨1, 9, [⟨0, 10, 10, 0⟩], "capturing", 100⟩, 0⟩
          1 9 200).1.captureState =
        some ⟨1, 9, [], "measuring", 200⟩ := by
  exact ⟨by decide, by decide⟩

/-- C8 (amended): a second start-capture request with a truthy tabId
unconditionally replaces whatever session is active by a fresh one (empty
captures list, new settings and start time, status "measuring") and
re-begins the scroll capture; the previous session's accumulated state is
discarded, not preserved. -/
theorem handleStartCapture_replaces (bg : BgState) (tabId settingsId now : Nat)
    (ht : tabId ≠ 0) :
    (handleStartCapture bg tabId settingsId now).1.captureState =
        some ⟨tabId, settingsId, [], "measuring", now⟩ ∧
      (handleStartCapture bg tabId settingsId now).2 =
        [Message.beginScrollCapture] := by
  unfold handleStartCapture
  rw [if_neg ht]
  exact ⟨rfl, rfl⟩

/-- Witness for C8's amended theorem. -/
theorem handleStartCapture_replaces_witness :
    (handleStartCapture ⟨some ⟨1, 9, [⟨0, 10, 10, 0⟩], "capturing", 100⟩, 0⟩
          1 9 200).1.captureState =
        some ⟨1, 9, [], "measuring", 200⟩ ∧
      (handleStartCapture ⟨some ⟨1, 9, [⟨0, 10, 10, 0⟩], "capturing", 100⟩, 0⟩
          1 9 200).2 = [Message.beginScrollCapture] :=
  handleStartCapture_replaces _ 1 9 200 (by decide)

/-! ### The capture request sequence of a successful session (claim C5) -/

/-- The (scrollY, clipHeight) pairs of the capture-viewport requests emitted
after the first one, driving the content script with next-scroll until it
finishes (with fuel; every successful session uses at most totalScrolls
steps). -/
def capturesFromContent : ContentState → PageState → Nat → List (Nat × Nat)
  | _, _, 0 => []
  | st, pg, fuel + 1 =>
    match captureNextViewport st pg with
    | (st', pg', Message.captureViewport y _ c _ _) =>
      (y, c) :: capturesFromContent st' pg' fuel
    | _ => []

/-- All (scrollY, clipHeight) pairs of the capture-viewport requests of one
session, starting with the request emitted by `beginCapture`. -/
def sessionCaptureList (pg : PageState) : List (Nat × Nat) :=
  match beginCapture pg with
  | (st, pg1, Message.captureViewport y _ c _ _) =>
    (y, c) :: capturesFromContent st pg1 st.totalScrolls
  | _ => []

/-- The request the driver actually produces for scroll step j:
`window.scrollTo(0, j*V)` is clamped by the browser to the maximum scroll
offset H - V, the script reads the clamped `window.scrollY` back, and clips
to the remaining page height. -/
def plannedCapture (H V j : Nat) : Nat × Nat :=
  (min (j * V) (H - V), min V (H - min (j * V) (H - V)))

theorem capturesFromContent_spec :
    ∀ (fuel : Nat) (st : ContentState) (pg : PageState),
      pg.pageHeight = st.pageHeight → pg.viewportHeight = st.viewportHeight →
      st.totalScrolls - (st.scrollIndex + 1) ≤ fuel →
      capturesFromContent st pg fuel =
        (List.range' (st.scrollIndex + 1)
            (st.totalScrolls - (st.scrollIndex + 1))).map
          (plannedCapture st.pageHeight st.viewportHeight) := by
  intro fuel
  induction fuel with
  | zero =>
    intro st pg h1 h2 hfuel
    have hz : st.totalScrolls - (st.scrollIndex + 1) = 0 := by omega
    rw [hz]
    rfl
  | succ fuel ih =>
    intro st pg h1 h2 hfuel
    by_cases hdone : st.totalScrolls ≤ st.scrollIndex + 1
    · have hz : st.totalScrolls - (st.scrollIndex + 1) = 0 := by omega
      rw [hz]
      show (match captureNextViewport st pg with
        | (st', pg', Message.captureViewport y _ c _ _) =>
          (y, c) :: capturesFromContent st' pg' fuel
        | _ => []) = []
      rw [captureNextViewport, if_pos hdone]
    · have hcnt : st.totalScrolls - (st.scrollIndex + 1) =
          (st.totalScrolls - (st.scrollIndex + 2)) + 1 := by omega
      show (match captureNextViewport st pg with
        | (st', pg', Message.captureViewport y _ c _ _) =>
          (y, c) :: capturesFromContent st' pg' fuel
        | _ => []) = _
      rw [captureNextViewport, if_neg hdone]
      have hpg1H :
          (if st.scrollIndex + 1 = 1 then applyFixedElementHiding pg
            else pg).pageHeight = st.pageHeight := by
        split
        · exact h1
        · exact h1
      have hpg1V :
          (if st.scrollIndex + 1 = 1 then applyFixedElementHiding pg
            else pg).viewportHeight = st.viewportHeight := by
        split
        · exact h2
        · exact h2
      have hscroll : (scrollTo
          (if st.scrollIndex + 1 = 1 then applyFixedElementHiding pg else pg)
          ((st.scrollIndex + 1) * st.viewportHeight)).scrollY =
          min ((st.scrollIndex + 1) * st.viewportHeight)
            (st.pageHeight - st.viewportHeight) := by
        unfold scrollTo
        rw [hpg1H, hpg1V]
      rw [hcnt, List.range'_succ, List.map_cons]
      unfold requestCaptureOfCurrentViewport
      dsimp only
      rw [hscroll]
      congr 1
      · have := ih { st with scrollIndex := st.scrollIndex + 1 }
          (scrollTo (if st.scrollIndex + 1 = 1 then applyFixedElementHiding pg
            else pg) ((st.scrollIndex + 1) * st.viewportHeight))
          (by unfold scrollTo; exact hpg1H)
          (by unfold scrollTo; exact hpg1V)
          (by dsimp only; omega)
        exact this

/-- The clip height of any scroll step equals min V H, whatever the step's
target offset a was; in particular it holds for the last step. -/
theorem lastClip_eq (a H V : Nat) :
    min V (H - min a (H - V)) = min V H := by
  omega

/-- C5 (amended): the orchestration computes
expectedCount = ceil(totalHeightPx / V) (embedded as the Nat ceiling
division, proved equal to the mathematical ceiling), and the session emits
exactly expectedCount capture requests, the j-th at the browser-clamped
offset min(j*V, H-V) with clip height min(V, H - offset); consequently the
LAST capture's clip height is min(V, H) — not totalHeightPx - (n-1)*V,
which it equals only when V divides H or H < V — and it is always > 0 and
<= V. -/
theorem session_captures_spec (pg : PageState) (hH : 0 < pg.pageHeight)
    (hV : 0 < pg.viewportHeight) :
    (beginCapture pg).1.totalScrolls =
        natCeilDiv pg.pageHeight pg.viewportHeight ∧
      ((natCeilDiv pg.pageHeight pg.viewportHeight : Nat) : ℤ) =
        Int.ceil ((pg.pageHeight : ℚ) / (pg.viewportHeight : ℚ)) ∧
      sessionCaptureList pg =
        (List.range' 0 (natCeilDiv pg.pageHeight pg.viewportHeight)).map
          (plannedCapture pg.pageHeight pg.viewportHeight) ∧
      (sessionCaptureList pg).getLast? =
        some (min ((natCeilDiv pg.pageHeight pg.viewportHeight - 1) *
                pg.viewportHeight) (pg.pageHeight - pg.viewportHeight),
              min pg.viewportHeight pg.pageHeight) ∧
      0 < min pg.viewportHeight pg.pageHeight ∧
      min pg.viewportHeight pg.pageHeight ≤ pg.viewportHeight := by
  have hn : 0 < natCeilDiv pg.pageHeight pg.viewportHeight := by
    unfold natCeilDiv
    have := (Nat.one_le_div_iff hV).mpr
      (show pg.viewportHeight ≤ pg.pageHeight + pg.viewportHeight - 1 by omega)
    omega
  have hsess : sessionCaptureList pg =
      ((beginPageState pg).scrollY,
        min (beginContentState pg).viewportHeight
          ((beginContentState pg).pageHeight - (beginPageState pg).scrollY)) ::
        capturesFromContent (beginContentState pg) (beginPageState pg)
          (beginContentState pg).totalScrolls := rfl
  have h0 : (beginPageState pg).scrollY = 0 := by
    unfold beginPageState scrollTo
    simp
  have hlist : sessionCaptureList pg =
      (List.range' 0 (natCeilDiv pg.pageHeight pg.viewportHeight)).map
        (plannedCapture pg.pageHeight pg.viewportHeight) := by
    rw [hsess]
    have hrest := capturesFromContent_spec
      ((beginContentState pg).totalScrolls) (beginContentState pg)
      (beginPageState pg) rfl rfl (by unfold beginContentState; dsimp only; omega)
    rw [hrest]
    have hcnt : natCeilDiv pg.pageHeight pg.viewportHeight =
        (natCeilDiv pg.pageHeight pg.viewportHeight - 1) + 1 := by omega
    rw [show (beginContentState pg).pageHeight = pg.pageHeight from rfl,
      show (beginContentState pg).viewportHeight = pg.viewportHeight from rfl,
      show (beginContentState pg).scrollIndex = 0 from rfl,
      show (beginContentState pg).totalScrolls =
        natCeilDiv pg.pageHeight pg.viewportHeight from rfl, h0]
    rw [hcnt, List.range'_succ, List.map_cons]
    congr 1
    unfold plannedCapture
    have hz : min (0 * pg.viewportHeight)
        (pg.pageHeight - pg.viewportHeight) = 0 := by
      simp
    rw [hz]
  refine ⟨rfl, natCeilDiv_eq_ceil _ _ hV, hlist, ?_, by omega, by omega⟩
  rw [hlist]
  have hcnt : natCeilDiv pg.pageHeight pg.viewportHeight =
      (natCeilDiv pg.pageHeight pg.viewportHeight - 1) + 1 := by omega
  rw [hcnt, List.range'_concat, List.map_append, List.getLast?_append]
  show (List.getLast? [plannedCapture pg.pageHeight pg.viewportHeight
      (0 + 1 * (natCeilDiv pg.pageHeight pg.viewportHeight - 1))]).or _ = _
  unfold plannedCapture
  rw [show (0 + 1 * (natCeilDiv pg.pageHeight pg.viewportHeight - 1)) =
    natCeilDiv pg.pageHeight pg.viewportHeight - 1 by omega]
  rw [lastClip_eq]
  rfl

/-- Concrete page for the C5 witness: exactly two full viewports. -/
def pageC5w : PageState :=
  { scrollY := 0, scrollBehavior := "", docOverflow := "", bodyOverflow := "",
    fixedVis := [], pageHeight := 20, viewportHeight := 10 }

/-- Witness for C5's amended theorem. -/
theorem session_captures_spec_witness :
    (beginCapture pageC5w).1.totalScrolls =
        natCeilDiv pageC5w.pageHeight pageC5w.viewportHeight ∧
      ((natCeilDiv pageC5w.pageHeight pageC5w.viewportHeight : Nat) : ℤ) =
        Int.ceil ((pageC5w.pageHeight : ℚ) / (pageC5w.viewportHeight : ℚ)) ∧
      sessionCaptureList pageC5w =
        (List.range' 0 (natCeilDiv pageC5w.pageHeight pageC5w.viewportHeight)).map
          (plannedCapture pageC5w.pageHeight pageC5w.viewportHeight) ∧
      (sessionCaptureList pageC5w).getLast? =
        some (min ((natCeilDiv pageC5w.pageHeight pageC5w.viewportHeight - 1) *
                pageC5w.viewportHeight)
              (pageC5w.pageHeight - pageC5w.viewportHeight),
              min pageC5w.viewportHeight pageC5w.pageHeight) ∧
      0 < min pageC5w.viewportHeight pageC5w.pageHeight ∧
      min pageC5w.viewportHeight pageC5w.pageHeight ≤ pageC5w.viewportHeight :=
  session_captures_spec pageC5w (by decide) (by decide)

/-- Concrete page for the C5 counterexample: height 1500, viewport 1000. -/
def pageC5c : PageState :=
  { scrollY := 0, scrollBehavior := "", docOverflow := "", bodyOverflow := "",
    fixedVis := [], pageHeight := 1500, viewportHeight := 1000 }

/-- C5 counterexample: for a 1500px page with a 1000px viewport the
orchestration computes expectedCount = 2, but the LAST capture's clip
height is 1000 (the browser clamps the second scroll to offset 500 and the
clip is a full viewport), not totalHeightPx - (expectedCount-1)*V = 500 as
the claim states. -/
theorem last_clip_not_remainder :
    (beginCapture pageC5c).1.totalScrolls = 2 ∧
      (sessionCaptureList pageC5c).getLast? = some (500, 1000) ∧
      (1000 : Nat) ≠ 1500 - (2 - 1) * 1000 := by
  refine ⟨by decide, by decide, by decide⟩

/-! ### Rate limiter (src/background.js, MIN_CAPTURE_INTERVAL_MS and the
rate-limit prelude of handleCaptureViewport) -/

/-- `const MIN_CAPTURE_INTERVAL_MS = 550`. -/
def MIN_CAPTURE_INTERVAL_MS : Nat := 550

/-- The time at which `captureVisibleTab` actually fires when
`handleCaptureViewport` starts running at `now` with `lastCaptureTime =
last`: `elapsed = now - lastCaptureTime`; if `elapsed <
MIN_CAPTURE_INTERVAL_MS` the handler awaits `MIN_CAPTURE_INTERVAL_MS -
elapsed` first.  The fire time is also the new recorded
`lastCaptureTime = Date.now()`. -/
def captureFireTime (last now : Nat) : Nat :=
  if now - last < MIN_CAPTURE_INTERVAL_MS then
    now + (MIN_CAPTURE_INTERVAL_MS - (now - last))
  else now

/-- Sequential handling of a stream of capture-viewport requests: each entry
of `gaps` is the delay between the previous fire (= previously recorded
timestamp, since requests are handled one at a time) and the arrival of the
next request.  Returns the fire times. -/
def sequentialFireTimes (last : Nat) : List Nat → List Nat
  | [] => []
  | gap :: rest =>
    captureFireTime last (last + gap) ::
      sequentialFireTimes (captureFireTime last (last + gap)) rest

theorem captureFireTime_step (last gap : Nat) :
    last + MIN_CAPTURE_INTERVAL_MS ≤ captureFireTime last (last + gap) := by
  unfold captureFireTime MIN_CAPTURE_INTERVAL_MS
  split
  · omega
  · omega

/-- C7: under sequential handling, consecutive invocations of
captureVisibleTab are separated by at least MIN_CAPTURE_INTERVAL_MS =
550 ms: each acquisition suspends until 550 ms have elapsed since the
previously recorded timestamp (burning the wait when the elapsed time is
short), and the fire time is recorded as the new timestamp. -/
theorem rate_limiter_spacing (last : Nat) (gaps : List Nat) :
    List.Chain' (fun a b => a + MIN_CAPTURE_INTERVAL_MS ≤ b)
        (sequentialFireTimes last gaps) ∧
      ∀ prev now, prev ≤ now →
        prev + MIN_CAPTURE_INTERVAL_MS ≤ captureFireTime prev now := by
  constructor
  · induction gaps generalizing last with
    | nil => exact List.chain'_nil
    | cons gap rest ih =>
      cases rest with
      | nil => exact List.chain'_singleton _
      | cons g2 r2 =>
        rw [sequentialFireTimes, sequentialFireTimes]
        rw [List.chain'_cons]
        constructor
        · exact captureFireTime_step _ g2
        · have := ih (captureFireTime last (last + gap))
          rw [sequentialFireTimes] at this
          exact this
  · intro prev now h
    unfold captureFireTime MIN_CAPTURE_INTERVAL_MS
    split
    · omega
    · omega

/-- Witness for C7 at a concrete request stream (requests arriving 100 ms,
600 ms, and 0 ms after the previous fire). -/
theorem rate_limiter_spacing_witness :
    List.Chain' (fun a b => a + MIN_CAPTURE_INTERVAL_MS ≤ b)
        (sequentialFireTimes 0 [100, 600, 0]) ∧
      0 + MIN_CAPTURE_INTERVAL_MS ≤ captureFireTime 0 100 :=
  ⟨(rate_limiter_spacing 0 [100, 600, 0]).1,
    (rate_limiter_spacing 0 [100, 600, 0]).2 0 100 (by decide)⟩

end PageGobbler
